import Mathlib

/-!
Verification of the Holley EFI datalog decoder (`holley-efi-parser`).

Shallow embedding of `src/holley_parser/dlz_decompressor.py` and
`src/holley_parser/universal_dl_parser.py`.  Byte buffers are modelled as
`List Nat` (each element a byte value); 32-bit little-endian words are the
`Nat` obtained by combining four bytes.  IEEE-754 single-precision values
are represented by their 32-bit bit patterns: the Python code never does
arithmetic on the decoded floats, it only reinterprets bytes and compares
against constants, and for the constants involved the float ordering
coincides with the integer ordering of the bit patterns (documented at the
corresponding definitions below).
-/

namespace Holley

/-- Embeds `_byte_swap` from `dlz_decompressor.py`: each complete 4-byte
group `[A,B,C,D]` becomes `[D,C,B,A]`; a trailing group shorter than
4 bytes is copied unchanged. -/
def byteSwap : List Nat → List Nat
  | a :: b :: c :: d :: rest => d :: c :: b :: a :: byteSwap rest
  | rest => rest

/-- Embeds `_rle_decompress` from `dlz_decompressor.py`: scan left to
right; a byte other than `0xFF` is copied; `0xFF` with at least two bytes
following consumes a group `0xFF COUNT VALUE`, emitting a literal `0xFF`
when `COUNT = 0` and `VALUE` repeated `COUNT` times otherwise; `0xFF`
with fewer than two bytes remaining emits `0xFF` and stops. -/
def rleDecompress : List Nat → List Nat
  | [] => []
  | b :: rest =>
    if b = 0xFF then
      match rest with
      | n :: v :: rest2 =>
          (if n = 0 then [0xFF] else List.replicate n v) ++ rleDecompress rest2
      | _ => [0xFF]
    else
      b :: rleDecompress rest
termination_by l => l.length
decreasing_by all_goals simp_wf <;> omega

/-- Embeds `decompress_dlz` from `dlz_decompressor.py`: byte swap, then
RLE decode, then byte swap again. -/
def decompressDlz (dlzData : List Nat) : List Nat :=
  byteSwap (rleDecompress (byteSwap dlzData))

end Holley

namespace Holley

/-- C4 helper: `byteSwap` is an involution. -/
theorem byteSwap_involutive : ∀ x : List Nat, byteSwap (byteSwap x) = x
  | [] => rfl
  | [a] => rfl
  | [a, b] => rfl
  | [a, b, c] => rfl
  | a :: b :: c :: d :: rest => by
      simp only [byteSwap, byteSwap_involutive rest]

/-- C4 helper: `byteSwap` preserves length. -/
theorem byteSwap_length : ∀ x : List Nat, (byteSwap x).length = x.length
  | [] => rfl
  | [a] => rfl
  | [a, b] => rfl
  | [a, b, c] => rfl
  | a :: b :: c :: d :: rest => by
      simp only [byteSwap, List.length_cons, byteSwap_length rest]

/-- C4: the byte-swap transform is an involution — for every byte
sequence `x` (any length, including lengths not divisible by 4),
`byteSwap (byteSwap x) = x`; each complete 4-byte group is reversed, a
trailing short group is unchanged, and the output length always equals
the input length. -/
theorem byteSwap_involution_spec :
    (∀ x : List Nat, byteSwap (byteSwap x) = x) ∧
    (∀ x : List Nat, (byteSwap x).length = x.length) ∧
    (∀ a b c d rest, byteSwap (a :: b :: c :: d :: rest)
        = d :: c :: b :: a :: byteSwap rest) ∧
    (∀ x : List Nat, x.length < 4 → byteSwap x = x) := by
  refine ⟨byteSwap_involutive, byteSwap_length, fun a b c d rest => rfl, ?_⟩
  intro x h
  match x, h with
  | [], _ => rfl
  | [a], _ => rfl
  | [a, b], _ => rfl
  | [a, b, c], _ => rfl

/-- C4 witness: the conjunct with a hypothesis, instantiated at a
concrete 5-byte input. -/
theorem byteSwap_involution_spec_witness :
    byteSwap (byteSwap [1, 2, 3, 4, 5]) = [1, 2, 3, 4, 5] ∧
    byteSwap [1, 2, 3] = [1, 2, 3] := by
  refine ⟨byteSwap_involution_spec.1 [1, 2, 3, 4, 5],
    byteSwap_involution_spec.2.2.2 [1, 2, 3] (by decide)⟩

/-- C2: for every input byte sequence, including the empty one,
`decompressDlz` is a total function equal to byte-swap, then run-length
decode, then byte-swap again, in that exact order. -/
theorem decompressDlz_pipeline :
    (∀ x : List Nat, decompressDlz x = byteSwap (rleDecompress (byteSwap x))) ∧
    decompressDlz [] = [] := by
  exact ⟨fun x => rfl, by simp [decompressDlz, rleDecompress, byteSwap]⟩

/-- C3: the run-length decoder copies a non-`0xFF` byte verbatim; `0xFF`
with at least two bytes following consumes the 3-byte group
`0xFF COUNT VALUE`, emitting a single literal `0xFF` when `COUNT = 0`
(the `VALUE` byte consumed but discarded) and `VALUE` repeated `COUNT`
times when `COUNT > 0`; in particular `[0xFF, 0, v]` decodes to `[0xFF]`
and `[0xFF, n, v]` with `n > 0` decodes to `n` copies of `v`. -/
theorem rleDecompress_spec :
    (∀ (b : Nat) (rest : List Nat), b ≠ 0xFF →
        rleDecompress (b :: rest) = b :: rleDecompress rest) ∧
    (∀ (n v : Nat) (rest : List Nat),
        rleDecompress (0xFF :: n :: v :: rest)
          = (if n = 0 then [0xFF] else List.replicate n v) ++ rleDecompress rest) ∧
    (∀ v : Nat, rleDecompress [0xFF, 0, v] = [0xFF]) ∧
    (∀ n v : Nat, 0 < n → rleDecompress [0xFF, n, v] = List.replicate n v) := by
  refine ⟨?_, ?_, ?_, ?_⟩
  · intro b rest hb
    rw [rleDecompress.eq_def]
    simp [hb]
  · intro n v rest
    simp [rleDecompress]
  · intro v
    simp [rleDecompress]
  · intro n v hn
    simp [rleDecompress, Nat.pos_iff_ne_zero.mp hn]

/-- C3 witness: the hypotheses of `rleDecompress_spec` discharged at the
concrete inputs `b = 7` and `(n, v) = (5, 0x41)`. -/
theorem rleDecompress_spec_witness :
    rleDecompress [7, 9] = 7 :: rleDecompress [9] ∧
    rleDecompress [0xFF, 5, 0x41] = List.replicate 5 0x41 :=
  ⟨rleDecompress_spec.1 7 [9] (by decide),
   rleDecompress_spec.2.2.2 5 0x41 (by decide)⟩

/-- C9: the run-length decoder is the identity on marker-free input —
for every byte sequence containing no `0xFF` byte, `rleDecompress x = x`. -/
theorem rleDecompress_id_of_no_marker :
    ∀ x : List Nat, (∀ b ∈ x, b ≠ 0xFF) → rleDecompress x = x := by
  intro x hx
  induction x with
  | nil => rw [rleDecompress.eq_def]
  | cons b rest ih =>
      have hb : b ≠ 0xFF := hx b (List.mem_cons_self b rest)
      have hrest : ∀ c ∈ rest, c ≠ 0xFF := fun c hc => hx c (List.mem_cons_of_mem b hc)
      rw [rleDecompress.eq_def]
      simp [hb, ih hrest]

/-- C9 witness: the no-marker hypothesis discharged at the concrete
input `[0, 1, 2, 254, 17]`. -/
theorem rleDecompress_id_of_no_marker_witness :
    rleDecompress [0, 1, 2, 254, 17] = [0, 1, 2, 254, 17] :=
  rleDecompress_id_of_no_marker [0, 1, 2, 254, 17] (by decide)

/-!
Embedding of `universal_dl_parser.py`.  `struct.unpack('<I', ...)` and
`struct.unpack('<f', ...)` both reinterpret 4 little-endian bytes; we
model both as the 32-bit word `readU32LE`.  Float comparisons against
constants in the detectors are embedded at the bit level: for IEEE-754
single precision, nonnegative finite values are ordered exactly as their
bit patterns, every NaN sign-stripped pattern exceeds `0x7F800000`, and
the constants `50000.0`, `300.0`, `10000.0`, `100.0` have bit patterns
`0x47435000`, `0x43960000`, `0x461C4000`, `0x42C80000`.
-/

/-- The little-endian 32-bit word formed from `data[off .. off+3]`
(out-of-range bytes read as 0; every use below is guarded by a length
check, matching where the Python `struct.unpack` cannot raise). -/
def readU32LE (data : List Nat) (off : Nat) : Nat :=
  data.getD off 0 + data.getD (off + 1) 0 * 256 +
    data.getD (off + 2) 0 * 65536 + data.getD (off + 3) 0 * 16777216

/-- `UniversalDLParser.MAGIC_V3`. -/
def MAGIC_V3 : Nat := 0x0095365F

/-- `UniversalDLParser.MAGIC_V5_V6`. -/
def MAGIC_V5_V6 : Nat := 0x0085F41F

/-- `UniversalDLParser.V6_DATA_START`. -/
def V6_DATA_START : Nat := 16456

/-- The format-description dictionary returned by the detector methods. -/
structure FormatInfo where
  version : String
  version_field : Nat
  magic : Nat
  floats_per_row : Nat
  bytes_per_row : Nat
  data_start : Nat
  num_rows : Int
  interleaved : Bool
deriving Repr, DecidableEq

/-- The `ValueError` raised inside `_detect_v5_v6_format` for the V5
sparse format (the only exception a detector itself raises). -/
inductive DetectError where
  | v5Sparse
deriving Repr, DecidableEq

/-- Embeds the `_detect_v3_format` sample check `0 <= abs(val) < 50000`
at the bit level: stripping the sign bit orders finite singles by
magnitude, `50000.0` is exactly `0x47435000`, NaNs (magnitude pattern
above `0x7F800000`) and infinities fail the Python check and also fail
this one. -/
def v3SampleOk (w : Nat) : Bool :=
  decide (w % 0x80000000 < 0x47435000)

/-- One candidate-offset check from the `_detect_v3_format` scan loop:
remainder of the data size modulo the 516-float stride under 100, the
4-byte sample read at row position 10 in bounds (otherwise the
`struct.unpack` inside `try` raises and the candidate is skipped), and
the sample passing the plausibility check. -/
def v3CandOk (data : List Nat) (ds : Nat) : Bool :=
  decide (((data.length : Int) - (ds : Int)).emod 2064 < 100) &&
    decide (ds + 40 + 4 ≤ data.length) &&
    v3SampleOk (readU32LE data (ds + 40))

/-- The dictionary `_detect_v3_format` returns for an accepted
candidate offset `ds`. -/
def v3Info (data : List Nat) (field08 ds : Nat) : FormatInfo :=
  { version := "V3", version_field := field08, magic := MAGIC_V3,
    floats_per_row := 516, bytes_per_row := 2064, data_start := ds,
    num_rows := ((data.length : Int) - (ds : Int)).ediv 2064,
    interleaved := false }

/-- The scan loop of `_detect_v3_format` over a list of candidate
offsets: first acceptable candidate wins. -/
def v3Scan (data : List Nat) (field08 : Nat) : List Nat → Option FormatInfo
  | [] => none
  | ds :: rest =>
    if v3CandOk data ds then some (v3Info data field08 ds)
    else v3Scan data field08 rest

/-- The candidate offsets `range(1000, 5000, 100)` scanned by
`_detect_v3_format` (from `V3_DATA_START_RANGE`). -/
def v3Candidates : List Nat := List.range' 1000 40 100

/-- Embeds `UniversalDLParser._detect_v3_format`. -/
def detectV3Format (data : List Nat) (field08 : Nat) : Option FormatInfo :=
  v3Scan data field08 v3Candidates

/-- Embeds the heuristic RPM check `300 < val < 10000` at the bit
level: the bounds are exactly `0x43960000` and `0x461C4000`; negative
values and NaNs fail both in Python and here. -/
def heurRpmOk (w : Nat) : Bool :=
  decide (0x43960000 < w) && decide (w < 0x461C4000)

/-- Embeds the heuristic TPS check `0 <= tps <= 100` at the bit level:
`100.0` is exactly `0x42C80000`; the only negative-sign pattern passing
the Python check is `-0.0 = 0x80000000`. -/
def heurTpsOk (w : Nat) : Bool :=
  decide (w ≤ 0x42C80000) || decide (w = 0x80000000)

/-- Version string computed in `_detect_v5_v6_heuristic`. -/
def heurVersion (field08 : Nat) : String :=
  if field08 ≥ 4 then "V" ++ toString field08 else "V5/V6"

/-- One candidate of the `_detect_v5_v6_heuristic` scan: the RPM-like
read must be in bounds (else `struct.unpack` raises into `except: pass`)
and plausible, the remainder below 100, and the TPS cross-check in
bounds and plausible. -/
def heurCand (data : List Nat) (field08 so : Nat) : Option FormatInfo :=
  if so + 4 ≤ data.length ∧ heurRpmOk (readU32LE data so) then
    let fi : FormatInfo :=
      { version := heurVersion field08, version_field := field08,
        magic := MAGIC_V5_V6, floats_per_row := 1030,
        bytes_per_row := 4120, data_start := so - 16,
        num_rows := ((data.length : Int) - ((so - 16 : Nat) : Int)).ediv 4120,
        interleaved := true }
    if ((data.length : Int) - ((so - 16 : Nat) : Int)).emod 4120 < 100 then
      if (so - 16) + 264 + 4 ≤ data.length ∧ heurTpsOk (readU32LE data ((so - 16) + 264)) then
        some fi
      else none
    else none
  else none

/-- The scan loop of `_detect_v5_v6_heuristic` over candidate offsets. -/
def heurScan (data : List Nat) (field08 : Nat) : List Nat → Option FormatInfo
  | [] => none
  | so :: rest =>
    match heurCand data field08 so with
    | some fi => some fi
    | none => heurScan data field08 rest

/-- The candidate offsets `range(15000, 18000, 4)`. -/
def heurCandidates : List Nat := List.range' 15000 750 4

/-- Embeds `UniversalDLParser._detect_v5_v6_heuristic`. -/
def detectV5V6Heuristic (data : List Nat) (field08 : Nat) : Option FormatInfo :=
  heurScan data field08 heurCandidates

/-- Embeds `UniversalDLParser._detect_v5_v6_format`: `field_08 = 6`
returns the fixed V6 layout when `num_rows > 0` and the remainder is
under 100 and otherwise falls through to `None`; `field_08 = 5` raises
the sparse-format `ValueError`; anything else tries the heuristic.
Python `//` and `%` on a positive divisor are `Int.ediv` / `Int.emod`. -/
def detectV5V6Format (data : List Nat) (field08 : Nat) :
    Except DetectError (Option FormatInfo) :=
  if field08 = 6 then
    let dataSize : Int := (data.length : Int) - (V6_DATA_START : Int)
    let numRows := dataSize.ediv 4120
    let remainder := dataSize.emod 4120
    let fi : FormatInfo :=
      { version := "V6", version_field := field08,
        magic := MAGIC_V5_V6, floats_per_row := 1030, bytes_per_row := 4120,
        data_start := V6_DATA_START, num_rows := numRows, interleaved := true }
    if numRows > 0 ∧ remainder < 100 then
      Except.ok (some fi)
    else Except.ok none
  else if field08 = 5 then
    Except.error DetectError.v5Sparse
  else
    Except.ok (detectV5V6Heuristic data field08)

/-- Embeds `UniversalDLParser.detect_format`: `None` for buffers shorter
than 32 bytes or an unrecognized magic, otherwise dispatch on the magic;
the V5 `ValueError` propagates as `Except.error`. -/
def detect_format (data : List Nat) : Except DetectError (Option FormatInfo) :=
  if data.length < 32 then Except.ok none
  else
    if readU32LE data 0 = MAGIC_V3 then
      Except.ok (detectV3Format data (readU32LE data 8))
    else if readU32LE data 0 = MAGIC_V5_V6 then
      detectV5V6Format data (readU32LE data 8)
    else
      Except.ok none

instance exceptDecEq {ε α : Type} [DecidableEq ε] [DecidableEq α] :
    DecidableEq (Except ε α) := fun a b =>
  match a, b with
  | Except.error e, Except.error e' => decidable_of_iff (e = e') (by simp)
  | Except.error _, Except.ok _ => isFalse (by simp)
  | Except.ok _, Except.error _ => isFalse (by simp)
  | Except.ok a, Except.ok a' => decidable_of_iff (a = a') (by simp)

/-- The two `ValueError` outcomes observable from
`UniversalDLParser.__init__`: the V5 sparse message raised inside
detection, and the generic "Unknown DL format" message raised when
`detect_format` returns `None`. -/
inductive DLError where
  | v5Sparse
  | unknownFormat
deriving Repr, DecidableEq

/-- Embeds the observable outcome of `UniversalDLParser.__init__` on a
buffer: a `FormatInfo`, or which of the two `ValueError`s is raised. -/
def identify (data : List Nat) : Except DLError FormatInfo :=
  match detect_format data with
  | Except.error DetectError.v5Sparse => Except.error DLError.v5Sparse
  | Except.ok none => Except.error DLError.unknownFormat
  | Except.ok (some fi) => Except.ok fi

/-- A table cell of the structured decoder: `some` of the 32-bit
little-endian bit pattern when the 4-byte read fits inside the buffer,
`none` (Python `np.nan`) otherwise. -/
def cellAt (data : List Nat) (off : Nat) : Option Nat :=
  if off + 4 ≤ data.length then some (readU32LE data off) else none

/-- Embeds `UniversalDLParser._parse_non_interleaved`: one list per
column (`bytes_per_row // 4` columns), one entry per row, each read at
`data_start + row*bytes_per_row + col*4`. -/
def parseNonInterleaved (data : List Nat) (dataStart bytesPerRow numRows : Nat) :
    List (List (Option Nat)) :=
  (List.range (bytesPerRow / 4)).map fun colIdx =>
    (List.range numRows).map fun rowIdx =>
      cellAt data (dataStart + rowIdx * bytesPerRow + colIdx * 4)

/-- Embeds `UniversalDLParser._parse_interleaved`: 516 columns, the
column `c` read at `data_start + row*bytes_per_row + (c*2)*4`. -/
def parseInterleaved (data : List Nat) (dataStart bytesPerRow numRows : Nat) :
    List (List (Option Nat)) :=
  (List.range 516).map fun csvColIdx =>
    (List.range numRows).map fun rowIdx =>
      cellAt data (dataStart + rowIdx * bytesPerRow + csvColIdx * 2 * 4)

/-- Cell `(r, c)` of a column-major table as built by the two parsers. -/
def tableCell (t : List (List (Option Nat))) (r c : Nat) : Option Nat :=
  (t.getD c []).getD r none

/-- Concrete 12-byte buffer used by witnesses for the decoder claims. -/
def cellWitnessBuf : List Nat := [1, 0, 0, 0, 2, 0, 0, 0, 3, 0, 0, 0]

/-- Concrete buffer of exactly two interleaved rows used by the
column-overlap witness. -/
def c10Buf : List Nat := List.replicate 8240 7

theorem getD_map_range {α : Type} {n i : Nat} (f : Nat → α) (d : α) (h : i < n) :
    ((List.range n).map f).getD i d = f i := by
  rw [List.getD_eq_getElem?_getD, List.getElem?_map, List.getElem?_range h]
  rfl

theorem tableCell_parseInterleaved (data : List Nat)
    (dataStart bytesPerRow numRows r c : Nat) (hr : r < numRows) (hc : c < 516) :
    tableCell (parseInterleaved data dataStart bytesPerRow numRows) r c
      = cellAt data (dataStart + r * bytesPerRow + c * 2 * 4) := by
  unfold tableCell parseInterleaved
  rw [getD_map_range _ _ hc, getD_map_range _ _ hr]

theorem tableCell_parseNonInterleaved (data : List Nat)
    (dataStart bytesPerRow numRows r c : Nat) (hr : r < numRows)
    (hc : c < bytesPerRow / 4) :
    tableCell (parseNonInterleaved data dataStart bytesPerRow numRows) r c
      = cellAt data (dataStart + r * bytesPerRow + c * 4) := by
  unfold tableCell parseNonInterleaved
  rw [getD_map_range _ _ hc, getD_map_range _ _ hr]

/-- C5: for every buffer and layout, row `r < row_count` and channel
slot `c` (516 slots interleaved, `floats_per_row` slots otherwise), the
decoder stores at `(r, c)` the value at byte offset
`data_start + r*bytes_per_row + (interleaved ? c*2 : c)*4`: `none`
(missing, no error) when the offset plus 4 exceeds the buffer length,
otherwise exactly the 4-byte little-endian word (the bit pattern the
source reinterprets as an IEEE-754 single, unconverted). -/
theorem decoder_cell_spec :
    (∀ (data : List Nat) (dataStart bytesPerRow numRows r c : Nat),
      r < numRows → c < 516 →
      tableCell (parseInterleaved data dataStart bytesPerRow numRows) r c
        = if dataStart + r * bytesPerRow + c * 2 * 4 + 4 ≤ data.length
          then some (readU32LE data (dataStart + r * bytesPerRow + c * 2 * 4))
          else none) ∧
    (∀ (data : List Nat) (dataStart bytesPerRow numRows r c : Nat),
      r < numRows → c < bytesPerRow / 4 →
      tableCell (parseNonInterleaved data dataStart bytesPerRow numRows) r c
        = if dataStart + r * bytesPerRow + c * 4 + 4 ≤ data.length
          then some (readU32LE data (dataStart + r * bytesPerRow + c * 4))
          else none) := by
  constructor <;> intro data dataStart bytesPerRow numRows r c hr hc
  · rw [tableCell_parseInterleaved data dataStart bytesPerRow numRows r c hr hc]
    rfl
  · rw [tableCell_parseNonInterleaved data dataStart bytesPerRow numRows r c hr hc]
    rfl

/-- C5 witness: both conjuncts applied at a concrete 12-byte buffer,
row 0, slot 1, with the bounds discharged by `decide`. -/
theorem decoder_cell_spec_witness :
    (tableCell (parseInterleaved cellWitnessBuf 0 8 1) 0 1
      = if 0 + 0 * 8 + 1 * 2 * 4 + 4 ≤ cellWitnessBuf.length
        then some (readU32LE cellWitnessBuf (0 + 0 * 8 + 1 * 2 * 4))
        else none) ∧
    (tableCell (parseNonInterleaved cellWitnessBuf 0 8 1) 0 1
      = if 0 + 0 * 8 + 1 * 4 + 4 ≤ cellWitnessBuf.length
        then some (readU32LE cellWitnessBuf (0 + 0 * 8 + 1 * 4))
        else none) :=
  ⟨decoder_cell_spec.1 cellWitnessBuf 0 8 1 0 1 (by decide) (by decide),
   decoder_cell_spec.2 cellWitnessBuf 0 8 1 0 1 (by decide) (by decide)⟩

/-- C10: in an interleaved decode with `bytes_per_row = 4120`, slot 515
of row `r` is read at `data_start + r*4120 + 4120 = data_start +
(r+1)*4120`, the first 4 bytes of the next row; hence for `r+1 <
row_count` cell `(r, 515)` equals cell `(r+1, 0)`, and when the buffer
ends exactly at `data_start + row_count*4120` the final row's slot 515
is the only missing cell. -/
theorem interleaved_slot515_overlap :
    ∀ (data : List Nat) (dataStart numRows r : Nat),
      (dataStart + r * 4120 + 515 * 2 * 4 = dataStart + (r + 1) * 4120) ∧
      (r + 1 < numRows →
        tableCell (parseInterleaved data dataStart 4120 numRows) r 515
          = tableCell (parseInterleaved data dataStart 4120 numRows) (r + 1) 0) ∧
      (data.length = dataStart + numRows * 4120 → 0 < numRows →
        tableCell (parseInterleaved data dataStart 4120 numRows) (numRows - 1) 515
            = none ∧
        ∀ r2 c : Nat, r2 < numRows → c < 516 → ¬(r2 = numRows - 1 ∧ c = 515) →
          tableCell (parseInterleaved data dataStart 4120 numRows) r2 c ≠ none) := by
  intro data dataStart numRows r
  refine ⟨by omega, ?_, ?_⟩
  · intro hr
    rw [tableCell_parseInterleaved data dataStart 4120 numRows r 515
        (by omega) (by omega),
      tableCell_parseInterleaved data dataStart 4120 numRows (r + 1) 0 hr
        (by omega)]
    have harith : dataStart + r * 4120 + 515 * 2 * 4
        = dataStart + (r + 1) * 4120 + 0 * 2 * 4 := by omega
    rw [harith]
  · intro hlen hpos
    constructor
    · rw [tableCell_parseInterleaved data dataStart 4120 numRows (numRows - 1) 515
          (by omega) (by omega)]
      have hoob : ¬ (dataStart + (numRows - 1) * 4120 + 515 * 2 * 4 + 4 ≤ data.length) := by
        omega
      simp [cellAt, hoob]
    · intro r2 c hr2 hc hne
      rw [tableCell_parseInterleaved data dataStart 4120 numRows r2 c hr2 hc]
      have hin : dataStart + r2 * 4120 + c * 2 * 4 + 4 ≤ data.length := by omega
      simp [cellAt, hin]

/-- C10 witness: instantiated on a concrete buffer of exactly two
interleaved rows, with all hypotheses discharged concretely. -/
theorem interleaved_slot515_overlap_witness :
    (tableCell (parseInterleaved c10Buf 0 4120 2) 0 515
        = tableCell (parseInterleaved c10Buf 0 4120 2) 1 0) ∧
    (tableCell (parseInterleaved c10Buf 0 4120 2) (2 - 1) 515 = none ∧
      ∀ r2 c : Nat, r2 < 2 → c < 516 → ¬(r2 = 2 - 1 ∧ c = 515) →
        tableCell (parseInterleaved c10Buf 0 4120 2) r2 c ≠ none) := by
  have hl : c10Buf.length = 0 + 2 * 4120 := by
    simp only [c10Buf, List.length_replicate]
  exact ⟨(interleaved_slot515_overlap c10Buf 0 2 0).2.1 (by omega),
    (interleaved_slot515_overlap c10Buf 0 2 0).2.2 hl (by omega)⟩

/-- A 32-byte buffer with the standard magic and version-indicator 6:
the structural validation (`num_rows > 0`) fails, so detection returns
no descriptor. -/
def v6ShortBuf : List Nat :=
  [0x1F, 0xF4, 0x85, 0, 0, 0, 0, 0, 6, 0, 0, 0] ++ List.replicate 20 0

/-- A buffer of length `16456 + 4120` with the standard magic and
version-indicator 6: one full data row, remainder 0. -/
def v6FullBuf : List Nat :=
  [0x1F, 0xF4, 0x85, 0, 0, 0, 0, 0, 6, 0, 0, 0] ++ List.replicate 20564 0

/-- C1 counterexample: a 32-byte buffer whose little-endian magic is
`0x0085F41F` and whose version-indicator field at offset 8 is 6, on
which `detect_format` returns no descriptor (and the constructor hence
raises the unknown-format error) — refuting that detection "always
returns a descriptor (never a failure)" for such buffers. -/
theorem v6_short_buffer_no_descriptor :
    v6ShortBuf.length = 32 ∧
    readU32LE v6ShortBuf 0 = 0x0085F41F ∧
    readU32LE v6ShortBuf 8 = 6 ∧
    detect_format v6ShortBuf = Except.ok none ∧
    identify v6ShortBuf = Except.error DLError.unknownFormat := by
  decide

/-- C1 (amended): a buffer of at least 32 bytes with the standard magic
and version-indicator 6 yields the fixed V6 descriptor — `data_start =
16456`, interleaved, 1030 floats per row — provided the structural
validation of `_detect_v5_v6_format` passes, i.e. the byte count past
16456 holds at least one full 4120-byte row (`num_rows > 0`) with a
remainder under 100; otherwise detection fails. -/
theorem v6_detection_fixed_layout (data : List Nat)
    (hlen : 32 ≤ data.length)
    (hmagic : readU32LE data 0 = MAGIC_V5_V6)
    (hfield : readU32LE data 8 = 6)
    (hrows : 0 < ((data.length : Int) - (V6_DATA_START : Int)).ediv 4120)
    (hrem : ((data.length : Int) - (V6_DATA_START : Int)).emod 4120 < 100) :
    detect_format data = Except.ok (some
      { version := "V6", version_field := 6, magic := MAGIC_V5_V6,
        floats_per_row := 1030, bytes_per_row := 4120,
        data_start := V6_DATA_START,
        num_rows := ((data.length : Int) - (V6_DATA_START : Int)).ediv 4120,
        interleaved := true }) := by
  have h1 : ¬ data.length < 32 := by omega
  have h2 : MAGIC_V5_V6 ≠ MAGIC_V3 := by decide
  simp only [detect_format, h1, if_false, hmagic, h2, if_neg h2, if_pos rfl,
    hfield, detectV5V6Format, if_true, ite_false, ite_true]
  simp [hrows, hrem]

/-- C1 witness: the amended layout theorem applied at the concrete
buffer `v6FullBuf` (length 20576, so one full row and remainder 0). -/
theorem v6_detection_fixed_layout_witness :
    detect_format v6FullBuf = Except.ok (some
      { version := "V6", version_field := 6, magic := MAGIC_V5_V6,
        floats_per_row := 1030, bytes_per_row := 4120,
        data_start := V6_DATA_START,
        num_rows := ((v6FullBuf.length : Int) - (V6_DATA_START : Int)).ediv 4120,
        interleaved := true }) := by
  have hl : v6FullBuf.length = 20576 := by
    show ((([0x1F, 0xF4, 0x85, 0, 0, 0, 0, 0, 6, 0, 0, 0] : List Nat)
      ++ List.replicate 20564 0).length) = 20576
    rw [List.length_append, List.length_replicate]
    rfl
  exact v6_detection_fixed_layout v6FullBuf (by omega) (by decide) (by decide)
    (by rw [hl]; decide) (by rw [hl]; decide)

/-- A 32-byte buffer with the standard magic and version-indicator 5. -/
def v5Buf : List Nat :=
  [0x1F, 0xF4, 0x85, 0, 0, 0, 0, 0, 5, 0, 0, 0] ++ List.replicate 20 0

/-- C6: a buffer of at least 32 bytes with the standard magic and
version-indicator 5 always makes detection raise the V5
sparse-format `ValueError` — never a descriptor, hence never any
decoded table — and that error is distinct from the unknown-format
error. -/
theorem v5_sparse_detection (data : List Nat)
    (hlen : 32 ≤ data.length)
    (hmagic : readU32LE data 0 = MAGIC_V5_V6)
    (hfield : readU32LE data 8 = 5) :
    detect_format data = Except.error DetectError.v5Sparse ∧
    identify data = Except.error DLError.v5Sparse ∧
    DLError.v5Sparse ≠ DLError.unknownFormat := by
  have h1 : ¬ data.length < 32 := by omega
  have h2 : MAGIC_V5_V6 ≠ MAGIC_V3 := by decide
  have hd : detect_format data = Except.error DetectError.v5Sparse := by
    simp only [detect_format, h1, if_false, hmagic, if_neg h2, if_pos rfl,
      hfield, detectV5V6Format, ite_true, ite_false]
    simp
  exact ⟨hd, by simp [identify, hd], by decide⟩

/-- C6 witness: the hypotheses discharged at the concrete 32-byte
buffer `v5Buf`. -/
theorem v5_sparse_detection_witness :
    detect_format v5Buf = Except.error DetectError.v5Sparse ∧
    identify v5Buf = Except.error DLError.v5Sparse ∧
    DLError.v5Sparse ≠ DLError.unknownFormat :=
  v5_sparse_detection v5Buf (by decide) (by decide) (by decide)

/-- C7 counterexample: a 10-byte buffer (shorter than 32) and a 32-byte
buffer of an unrecognized magic produce the *same* unknown-format
error — the code raises no distinct malformed-header error for short
buffers, refuting the claimed distinction. -/
theorem short_and_unknown_same_error :
    (List.replicate 10 0).length < 32 ∧
    identify (List.replicate 10 0) = Except.error DLError.unknownFormat ∧
    32 ≤ (List.replicate 32 1).length ∧
    readU32LE (List.replicate 32 1) 0 ≠ MAGIC_V3 ∧
    readU32LE (List.replicate 32 1) 0 ≠ MAGIC_V5_V6 ∧
    identify (List.replicate 32 1) = Except.error DLError.unknownFormat := by
  decide

/-- C7 (amended): for every buffer shorter than 32 bytes,
identification fails — but with the same generic unknown-format
`ValueError` produced for a buffer of at least 32 bytes whose magic
matches neither signature; the two failure cases are not
distinguished. -/
theorem short_buffer_error (data : List Nat) (h : data.length < 32) :
    identify data = Except.error DLError.unknownFormat ∧
    ∀ data2 : List Nat, 32 ≤ data2.length →
      readU32LE data2 0 ≠ MAGIC_V3 → readU32LE data2 0 ≠ MAGIC_V5_V6 →
      identify data = identify data2 := by
  have hd : detect_format data = Except.ok none := by
    simp [detect_format, h]
  have h1 : identify data = Except.error DLError.unknownFormat := by
    simp [identify, hd]
  refine ⟨h1, fun data2 hl2 hm1 hm2 => ?_⟩
  have h3 : ¬ data2.length < 32 := by omega
  have hd2 : detect_format data2 = Except.ok none := by
    simp [detect_format, h3, hm1, hm2]
  rw [h1]
  simp [identify, hd2]

/-- C7 witness: the amended theorem applied at the concrete 10-byte
buffer, its inner quantifier at the concrete 32-byte buffer of ones. -/
theorem short_buffer_error_witness :
    identify (List.replicate 10 0) = Except.error DLError.unknownFormat ∧
    identify (List.replicate 10 0) = identify (List.replicate 32 1) := by
  have h := short_buffer_error (List.replicate 10 0) (by decide)
  exact ⟨h.1, h.2 (List.replicate 32 1) (by decide) (by decide) (by decide)⟩

theorem v3Scan_some (data : List Nat) (field08 : Nat) (fi : FormatInfo) :
    ∀ l : List Nat, v3Scan data field08 l = some fi →
      ∃ l1 l2, l = l1 ++ fi.data_start :: l2 ∧
        (∀ d ∈ l1, v3CandOk data d = false) ∧
        v3CandOk data fi.data_start = true ∧
        fi = v3Info data field08 fi.data_start := by
  intro l
  induction l with
  | nil => intro h; simp [v3Scan] at h
  | cons ds rest ih =>
      intro h
      by_cases hc : v3CandOk data ds
      · rw [v3Scan, if_pos hc] at h
        have hfi : fi = v3Info data field08 ds := (Option.some.injEq _ _).mp h.symm
        have hds : fi.data_start = ds := by rw [hfi]; rfl
        refine ⟨[], rest, ?_, by simp, ?_, ?_⟩
        · simp [hds]
        · rw [hds]; exact hc
        · rw [hds]; exact hfi
      · rw [v3Scan, if_neg hc] at h
        obtain ⟨l1, l2, hl, hfail, hok, hfi⟩ := ih h
        refine ⟨ds :: l1, l2, by simp [hl], ?_, hok, hfi⟩
        intro d hd
        rcases List.mem_cons.mp hd with hd1 | hd2
        · rw [hd1]; exact Bool.eq_false_iff.mpr hc
        · exact hfail d hd2

/-- C8: whenever `_detect_v3_format` (Variant A, legacy/compact magic)
returns a descriptor, its `data_start` is a candidate of the fixed-step
scan window `range(1000, 5000, 100)`, it satisfies both checks
(remainder under the 100-byte tolerance and the sample float at row
position 10 inside the plausibility range), every lower candidate in
the window fails the checks — lowest satisfying offset wins — and the
descriptor is exactly the one built from that offset. -/
theorem v3_lowest_candidate (data : List Nat) (field08 : Nat) (fi : FormatInfo)
    (h : detectV3Format data field08 = some fi) :
    fi.data_start ∈ v3Candidates ∧
    v3CandOk data fi.data_start = true ∧
    (∀ d ∈ v3Candidates, d < fi.data_start → v3CandOk data d = false) ∧
    fi = v3Info data field08 fi.data_start := by
  obtain ⟨l1, l2, hl, hfail, hok, hfi⟩ :=
    v3Scan_some data field08 fi v3Candidates h
  have hsorted : v3Candidates.Pairwise (· < ·) :=
    List.pairwise_lt_range' 1000 40 100
  refine ⟨by rw [hl]; simp, hok, ?_, hfi⟩
  intro d hd hdlt
  rw [hl] at hd hsorted
  rcases List.mem_append.mp hd with hd1 | hd2
  · exact hfail d hd1
  · rcases List.mem_cons.mp hd2 with hd3 | hd4
    · omega
    · have := (List.pairwise_cons.mp ((List.pairwise_append.mp hsorted).2.1)).1 d hd4
      omega

/-- Concrete legacy-magic buffer accepted at candidate offset 1000
(length 1044: remainder 44 under tolerance, sample float 0.0). -/
def v3WitBuf : List Nat := [0x5F, 0x36, 0x95, 0] ++ List.replicate 1040 0

set_option maxRecDepth 100000 in
/-- C8 witness: the detection hypothesis discharged at the concrete
buffer `v3WitBuf`, on which the scan accepts the first candidate. -/
theorem v3_lowest_candidate_witness :
    (v3Info v3WitBuf 0 1000).data_start ∈ v3Candidates ∧
    v3CandOk v3WitBuf (v3Info v3WitBuf 0 1000).data_start = true ∧
    (∀ d ∈ v3Candidates, d < (v3Info v3WitBuf 0 1000).data_start →
      v3CandOk v3WitBuf d = false) ∧
    v3Info v3WitBuf 0 1000 = v3Info v3WitBuf 0 (v3Info v3WitBuf 0 1000).data_start :=
  v3_lowest_candidate v3WitBuf 0 (v3Info v3WitBuf 0 1000) (by decide)

end Holley
